import Mathlib

/-!
Shallow embedding of the VedaSOS support bot (`support_bot.py`): the
localization resolver (`LocalizationManager`), the settings store
(`DataManager`), the dialog handlers and ticket dispatcher (`SupportBot`),
together with theorems checking the specification's claims against them.

Python dicts are modelled as association lists with in-place update
semantics (a rebind keeps the binding's position, matching dict key order);
Python exceptions are modelled with `Except`/`Option` where a handler can
raise; chat-transport wiring (argument unpacking, inline-keyboard markup,
the HTTP client) is taken as an external boundary: a handler's observable
output is the ordered list of localized texts it renders.
-/

namespace VedaSOS

/-! ## Association-list maps (the model of Python dicts) -/

/-- Lookup, as `d.get(k)` / `k in d` on a Python dict. -/
def mapGet [BEq κ] (m : List (κ × α)) (k : κ) : Option α :=
  m.lookup k

/-- Rebinding `d[k] = v`: replaces the first binding of `k` in place,
or appends a new binding, matching Python dict insertion order. -/
def mapSet [BEq κ] (m : List (κ × α)) (k : κ) (v : α) : List (κ × α) :=
  match m with
  | [] => [(k, v)]
  | (k2, v2) :: rest =>
    if k2 == k then (k, v) :: rest else (k2, v2) :: mapSet rest k v

/-- Deletion `del d[k]`: removes the first binding of `k`, a no-op when
the key is absent (the callers guard with `in` or tolerate absence). -/
def mapDel [BEq κ] (m : List (κ × α)) (k : κ) : List (κ × α) :=
  match m with
  | [] => []
  | (k2, v2) :: rest =>
    if k2 == k then rest else (k2, v2) :: mapDel rest k

/-- Well-formedness of the dict model: keys are pairwise distinct, which
every Python dict satisfies by construction. -/
def mapWF [BEq κ] : List (κ × α) → Bool
  | [] => true
  | (k, _) :: rest => (mapGet rest k).isNone && mapWF rest

/-! ## JSON values (what `json.load` returns for a locale bundle) -/

/-- Nested string-keyed JSON as stored in a locale bundle: leaf strings
and objects. -/
inductive JValue where
  | str (s : String)
  | obj (fields : List (String × JValue))

/-! ## Python `str.format`

A character-level model of `template.format(**params)` on templates whose
replacement fields are plain keyword names (the shape used by the locale
bundles): `\x7b\x7b` / `\x7d\x7d` are literal-brace escapes, `\x7bname\x7d`
is a substitution. A name absent from the keyword arguments raises
`KeyError` (which the resolver catches); a stray or unterminated brace
raises `ValueError`, and an empty field name with keyword-only arguments
raises `IndexError`, neither of which the resolver catches. -/

def lbrace : Char := Char.ofNat 123

def rbrace : Char := Char.ofNat 125

inductive FmtErr where
  | keyError (name : String)
  | uncaught
deriving DecidableEq, Repr

/-- Scanner mode: between fields, directly after a single opening or
closing brace, or inside a field name (accumulated reversed). -/
inductive FmtMode where
  | plain
  | afterL
  | afterR
  | inName (acc : List Char)

/-- Scanner state: current mode plus the output accumulated in reverse. -/
structure FmtState where
  mode : FmtMode
  out : List Char

/-- One scanner step of the `str.format` model. -/
def fmtStep (params : List (String × String)) (st : FmtState) (c : Char) :
    Except FmtErr FmtState :=
  match st.mode with
  | .plain =>
    if c = lbrace then .ok ⟨.afterL, st.out⟩
    else if c = rbrace then .ok ⟨.afterR, st.out⟩
    else .ok ⟨.plain, c :: st.out⟩
  | .afterL =>
    if c = lbrace then .ok ⟨.plain, lbrace :: st.out⟩
    else if c = rbrace then .error .uncaught
    else .ok ⟨.inName [c], st.out⟩
  | .afterR =>
    if c = rbrace then .ok ⟨.plain, rbrace :: st.out⟩
    else .error .uncaught
  | .inName acc =>
    if c = rbrace then
      let name := String.mk acc.reverse
      match params.lookup name with
      | some v => .ok ⟨.plain, v.data.reverseAux st.out⟩
      | none => .error (.keyError name)
    else .ok ⟨.inName (c :: acc), st.out⟩

/-- Scanner finalization: a dangling single brace or open field is a
`ValueError`. -/
def fmtFinish (st : FmtState) : Except FmtErr String :=
  match st.mode with
  | .plain => .ok (String.mk st.out.reverse)
  | _ => .error .uncaught

/-- Runs a scanner step function over the template's characters,
stopping at the first raised error. -/
def fmtRun (step : FmtState → Char → Except FmtErr FmtState) :
    FmtState → List Char → Except FmtErr FmtState
  | st, [] => .ok st
  | st, c :: rest =>
    match step st c with
    | .ok st2 => fmtRun step st2 rest
    | .error e => .error e

/-- Model of `template.format(**params)`. -/
def formatPy (params : List (String × String)) (tmpl : String) :
    Except FmtErr String :=
  match fmtRun (fmtStep params) ⟨.plain, []⟩ tmpl.data with
  | .ok st => fmtFinish st
  | .error e => .error e

/-- Modelled from the spec: the substitution semantics the specification
describes, where a placeholder whose name has a matching parameter is
substituted and a placeholder without one is left verbatim in the output.
Identical to `fmtStep` except in the missing-name case. -/
def specSubstStep (params : List (String × String)) (st : FmtState) (c : Char) :
    Except FmtErr FmtState :=
  match st.mode with
  | .plain =>
    if c = lbrace then .ok ⟨.afterL, st.out⟩
    else if c = rbrace then .ok ⟨.afterR, st.out⟩
    else .ok ⟨.plain, c :: st.out⟩
  | .afterL =>
    if c = lbrace then .ok ⟨.plain, lbrace :: st.out⟩
    else if c = rbrace then .error .uncaught
    else .ok ⟨.inName [c], st.out⟩
  | .afterR =>
    if c = rbrace then .ok ⟨.plain, rbrace :: st.out⟩
    else .error .uncaught
  | .inName acc =>
    if c = rbrace then
      let name := String.mk acc.reverse
      match params.lookup name with
      | some v => .ok ⟨.plain, v.data.reverseAux st.out⟩
      | none => .ok ⟨.plain, rbrace :: (acc ++ lbrace :: st.out)⟩
    else .ok ⟨.inName (c :: acc), st.out⟩

/-- Modelled from the spec: substitution leaving unmatched placeholders
verbatim, for comparison against the code's `formatPy`. -/
def specSubstitute (params : List (String × String)) (tmpl : String) :
    Except FmtErr String :=
  match fmtRun (specSubstStep params) ⟨.plain, []⟩ tmpl.data with
  | .ok st => fmtFinish st
  | .error e => .error e

/-! ## LocalizationManager -/

namespace LocalizationManager

/-- How loading one language's locale file can go: the file parses to a
JSON value, the file is missing (`FileNotFoundError`), or some other
exception is raised while opening or parsing it (for a present but
malformed file, `json.JSONDecodeError`). -/
inductive LoadOutcome where
  | loaded (v : JValue)
  | fileNotFound
  | otherFailure

/-- Model of `LocalizationManager.load_locales`: iterates over the fixed
language list, storing the parsed bundle, substituting an empty dict on
`FileNotFoundError` only; any other exception propagates out of the
constructor (`Except.error`). -/
def load_locales (loadFile : String → LoadOutcome) :
    Except Unit (List (String × JValue)) :=
  go ["RU", "UZ"] []
where
  go : List String → List (String × JValue) → Except Unit (List (String × JValue))
    | [], locales => .ok locales
    | lang :: rest, locales =>
      match loadFile lang with
      | .loaded v => go rest (mapSet locales lang v)
      | .fileNotFound => go rest (mapSet locales lang (.obj []))
      | .otherFailure => .error ()

/-- The nested key walk `for key in keys: text = text[key]`: `none` models
a `KeyError` (segment absent from an object) or a `TypeError` (indexing a
string with a string key); both land in the resolver's except clause. -/
def walk : JValue → List String → Option JValue
  | v, [] => some v
  | .obj fields, k :: rest =>
    match fields.lookup k with
    | some v => walk v rest
    | none => none
  | .str _, _ :: _ => none

/-- The bundle selection `self.locales.get(lang, self.locales["RU"])`:
the default argument is evaluated first, so a missing "RU" bundle is a
`KeyError` (`none`) regardless of `lang`. -/
def bundleFor (locales : List (String × JValue)) (lang : String) : Option JValue :=
  match locales.lookup "RU" with
  | none => none
  | some ru => some ((locales.lookup lang).getD ru)

/-- The visible marker returned when a localization key is missing. -/
def missingText (keys : List String) : String :=
  "[Missing translation: " ++ String.intercalate "." keys ++ "]"

/-- Model of `LocalizationManager.get(lang, *keys, **params)`. The try
body selects the bundle, walks the key path and, when `params` is
nonempty, formats the resulting template; `KeyError` and `TypeError` are
caught and produce the missing-translation marker, while any other
exception escapes the method (`Except.error`): formatting a non-string
value raises `AttributeError`, and a malformed template raises
`ValueError`/`IndexError`. -/
def get (locales : List (String × JValue)) (lang : String) (keys : List String)
    (params : List (String × String)) : Except Unit JValue :=
  match bundleFor locales lang with
  | none => .ok (.str (missingText keys))
  | some b =>
    match walk b keys with
    | none => .ok (.str (missingText keys))
    | some v =>
      if params.isEmpty then .ok v
      else
        match v with
        | .str tmpl =>
          match formatPy params tmpl with
          | .ok out => .ok (.str out)
          | .error (.keyError _) => .ok (.str (missingText keys))
          | .error .uncaught => .error ()
        | .obj _ => .error ()

end LocalizationManager

/-! ## DataManager -/

namespace DataManager

/-- A stored group entry, as built by `DataManager.add_group`. -/
structure GroupRecord where
  id : Int
  title : String
  added_at : String
  last_activity : String
deriving DecidableEq, Repr

/-- Per-user settings are a flat string-keyed dict (currently only the
"language" key is used). -/
abbrev UserSettings := List (String × List (String × String))

/-- Model of `DataManager.add_group`: insert a fresh record keyed by
`str(chat_id)` with both timestamps set to now, or update the title and
`last_activity` of an existing one. The durable save that follows is a
boundary effect. -/
def add_group (groups : List (String × GroupRecord)) (chat_id : Int)
    (chat_title : String) (now : String) : List (String × GroupRecord) :=
  let key := toString chat_id
  match mapGet groups key with
  | none => mapSet groups key ⟨chat_id, chat_title, now, now⟩
  | some g => mapSet groups key ⟨g.id, chat_title, g.added_at, now⟩

/-- Model of `DataManager.get_user_language`: the stored preference for
`str(user_id)` or the default "RU". -/
def get_user_language (user_settings : UserSettings) (user_id : Int) : String :=
  (((mapGet user_settings (toString user_id)).getD []).lookup "language").getD "RU"

/-- Model of `DataManager.set_user_language`: ensures an entry dict for
`str(user_id)` exists, then rebinds its "language" key. The durable save
that follows is a boundary effect. -/
def set_user_language (user_settings : UserSettings) (user_id : Int)
    (language : String) : UserSettings :=
  let key := toString user_id
  let entry := (mapGet user_settings key).getD []
  mapSet user_settings key (mapSet entry "language" language)

end DataManager

/-- Model of Python `str.strip()`: drop leading and trailing whitespace
characters. -/
def pyStrip (s : String) : String :=
  String.mk (((s.data.dropWhile Char.isWhitespace).reverse.dropWhile
    Char.isWhitespace).reverse)

/-! ## SupportBot

The dialog handlers. Each is a pure function of the bot's shared state and
the relevant pieces of the triggering update; its observable output is the
ordered list of localized texts it renders (each a key path plus
substitution parameters handed to `get_text`, whose resolution is the
LocalizationManager's concern) together with the `ConversationHandler`
return code where the source returns one. Inline-keyboard markup and
message editing versus replying are chat-transport concerns left at the
boundary. -/

namespace SupportBot

/-- One localized text rendered to the user: the key path and the
substitution parameters passed to `get_text`. -/
structure RenderedKey where
  keys : List String
  params : List (String × String)
deriving DecidableEq, Repr

/-- The per-user dict stored in `self.user_data`: `sos_command` creates it
with the first three keys; "branch" and "description" are added by later
steps, hence optional. -/
structure TicketDraft where
  group_name : String
  group_id : Int
  user_name : String
  branch : Option String
  description : Option String
deriving DecidableEq, Repr

/-- Telegram chat kinds relevant to the group-only check. -/
inductive ChatType where
  | group
  | supergroup
  | privateChat
  | channel
deriving DecidableEq, Repr

structure Chat where
  id : Int
  title : String
  ctype : ChatType
deriving DecidableEq, Repr

/-- The bot's shared mutable state: the session store `self.user_data`
plus the two DataManager collections. -/
structure BotState where
  user_data : List (Int × TicketDraft)
  groups : List (String × DataManager.GroupRecord)
  user_settings : DataManager.UserSettings
deriving DecidableEq, Repr

/-- Conversation states `BRANCH, DESCRIPTION = range(2)`. -/
def BRANCH : Int := 0

def DESCRIPTION : Int := 1

/-- `ConversationHandler.END`. -/
def END : Int := -1

/-- State, return code and rendered texts of one handler invocation. -/
structure HandlerResult where
  st : BotState
  ret : Int
  sent : List RenderedKey
deriving DecidableEq, Repr

/-- Model of `SupportBot.sos_command`: outside a group or supergroup it
renders the group-only error and ends; otherwise it records the group,
stores a fresh draft for the user (unconditionally rebinding
`self.user_data[user_id]`) and prompts for the branch. -/
def sos_command (st : BotState) (user_id : Int) (chat : Chat)
    (full_name : String) (now : String) : HandlerResult :=
  if chat.ctype ≠ .group ∧ chat.ctype ≠ .supergroup then
    ⟨st, END, [⟨["errors", "group_only"], []⟩]⟩
  else
    let groups2 := DataManager.add_group st.groups chat.id chat.title now
    let draft : TicketDraft := ⟨chat.title, chat.id, full_name, none, none⟩
    ⟨⟨mapSet st.user_data user_id draft, groups2, st.user_settings⟩,
      BRANCH, [⟨["ticket", "enter_branch_name"], []⟩]⟩

/-- Model of `SupportBot.receive_branch`: an input empty after `strip` is
rejected in place; otherwise the branch is stored on the draft if one
exists, else the generic error ends the conversation. -/
def receive_branch (st : BotState) (user_id : Int) (text : String) : HandlerResult :=
  let branch := pyStrip text
  if branch.isEmpty then
    ⟨st, BRANCH, [⟨["errors", "empty_branch"], []⟩]⟩
  else
    match mapGet st.user_data user_id with
    | some d =>
      let d2 : TicketDraft := ⟨d.group_name, d.group_id, d.user_name, some branch, d.description⟩
      ⟨⟨mapSet st.user_data user_id d2, st.groups, st.user_settings⟩,
        DESCRIPTION, [⟨["ticket", "describe_problem"], []⟩]⟩
    | none => ⟨st, END, [⟨["errors", "general_error"], []⟩]⟩

/-- Model of `SupportBot.no_branch_callback`: the inline shortcut stores
the sentinel branch value on the draft if one exists. Callback handlers
return no conversation code. -/
def no_branch_callback (st : BotState) (user_id : Int) : BotState × List RenderedKey :=
  match mapGet st.user_data user_id with
  | some d =>
    let d2 : TicketDraft := ⟨d.group_name, d.group_id, d.user_name, some "Не указан", d.description⟩
    (⟨mapSet st.user_data user_id d2, st.groups, st.user_settings⟩,
      [⟨["ticket", "describe_problem"], []⟩])
  | none => (st, [⟨["errors", "general_error"], []⟩])

/-- Model of `SupportBot.receive_description`: an input empty after
`strip` is rejected in place; with no draft the generic error ends the
conversation; otherwise the description is stored and the confirmation
summary is rendered. Reading `data["branch"]` for the summary raises
`KeyError` when the branch step never ran (`Except.error`), after the
description was already stored. -/
def receive_description (st : BotState) (user_id : Int) (text : String) :
    BotState × Except String (Int × List RenderedKey) :=
  let description := pyStrip text
  if description.isEmpty then
    (st, .ok (DESCRIPTION, [⟨["errors", "empty_description"], []⟩]))
  else
    match mapGet st.user_data user_id with
    | none => (st, .ok (END, [⟨["errors", "general_error"], []⟩]))
    | some d =>
      let d2 : TicketDraft := ⟨d.group_name, d.group_id, d.user_name, d.branch, some description⟩
      let st2 : BotState := ⟨mapSet st.user_data user_id d2, st.groups, st.user_settings⟩
      match d2.branch with
      | none => (st2, .error "KeyError")
      | some b =>
        (st2, .ok (END,
          [⟨["ticket", "confirm_title"], []⟩,
           ⟨["ticket", "confirm_details"],
             [("user_name", d2.user_name), ("group_name", d2.group_name),
              ("branch", b), ("description", description)]⟩]))

/-- The outcome of the one outbound HTTP call `requests.post(...)`: either
a response with a status code and body, or a raised exception (timeout,
transport fault, or any error while building the request). -/
inductive ReqResult where
  | status (code : Int) (body : String)
  | exn (msg : String)
deriving DecidableEq, Repr

/-- Model of `SupportBot.send_to_pyrus`: the whole body sits in a blanket
try/except returning False, so the call never raises. Building the payload
reads the draft's "branch" and "description" keys, so a draft missing
either raises a `KeyError` that the except clause turns into False before
any request is issued; with a complete draft the result is True exactly on
HTTP status 200. -/
def send_to_pyrus (data : TicketDraft) (net : ReqResult) : Bool :=
  match data.branch, data.description with
  | some _, some _ =>
    match net with
    | .status code _ => code == 200
    | .exn _ => false
  | _, _ => false

/-- The two callback payloads routed to `confirm_ticket_callback`. -/
inductive CallbackData where
  | confirm_ticket
  | cancel_ticket
deriving DecidableEq, Repr

/-- Model of `SupportBot.confirm_ticket_callback`: on confirm with a live
draft, dispatch to Pyrus, render the created or pyrus-error text by the
outcome, then delete the draft; with no draft render the generic error.
On cancel, delete the draft if present and render the cancelled text. -/
def confirm_ticket_callback (st : BotState) (user_id : Int)
    (qdata : CallbackData) (net : ReqResult) : BotState × List RenderedKey :=
  match qdata with
  | .confirm_ticket =>
    match mapGet st.user_data user_id with
    | some data =>
      let success := send_to_pyrus data net
      let sent : List RenderedKey :=
        if success then [⟨["ticket", "created"], []⟩]
        else [⟨["errors", "pyrus_error"], []⟩]
      (⟨mapDel st.user_data user_id, st.groups, st.user_settings⟩, sent)
    | none => (st, [⟨["errors", "general_error"], []⟩])
  | .cancel_ticket =>
    (⟨mapDel st.user_data user_id, st.groups, st.user_settings⟩,
      [⟨["ticket", "cancelled"], []⟩])

/-- Model of `SupportBot.cancel`: delete the draft if present (the guard
makes absence a no-op), always render the cancelled text, end the
conversation. -/
def cancel (st : BotState) (user_id : Int) : HandlerResult :=
  ⟨⟨mapDel st.user_data user_id, st.groups, st.user_settings⟩,
    END, [⟨["ticket", "cancelled"], []⟩]⟩

end SupportBot

/-! ## Helper lemmas -/

theorem mapGet_mapSet_self [BEq κ] [LawfulBEq κ] (m : List (κ × α)) (k : κ) (v : α) :
    mapGet (mapSet m k v) k = some v := by
  induction m with
  | nil => simp [mapGet, mapSet, List.lookup]
  | cons hd tl ih =>
    obtain ⟨k2, v2⟩ := hd
    cases hb : k2 == k with
    | true => simp [mapGet, mapSet, hb, List.lookup]
    | false =>
      have h2 : (k == k2) = false := by
        have : k2 ≠ k := by simpa using hb
        simpa using Ne.symm this
      simp only [mapSet, hb, Bool.false_eq_true, if_neg, not_false_eq_true]
      simpa [mapGet, List.lookup, h2] using ih

theorem mapGet_mapDel_self [BEq κ] [LawfulBEq κ] (m : List (κ × α)) (k : κ)
    (hwf : mapWF m = true) : mapGet (mapDel m k) k = none := by
  induction m with
  | nil => rfl
  | cons hd tl ih =>
    obtain ⟨k2, v2⟩ := hd
    simp only [mapWF, Bool.and_eq_true, Option.isNone_iff_eq_none] at hwf
    cases hb : k2 == k with
    | true =>
      have hk : k2 = k := by simpa using hb
      simpa [mapDel, hb, hk] using hwf.1
    | false =>
      have h2 : (k == k2) = false := by
        have : k2 ≠ k := by simpa using hb
        simpa using Ne.symm this
      simp only [mapDel, hb, Bool.false_eq_true, if_neg, not_false_eq_true]
      simpa [mapGet, List.lookup, h2] using ih hwf.2

theorem mapDel_absent [BEq κ] [LawfulBEq κ] (m : List (κ × α)) (k : κ)
    (habs : mapGet m k = none) : mapDel m k = m := by
  induction m with
  | nil => rfl
  | cons hd tl ih =>
    obtain ⟨k2, v2⟩ := hd
    cases hb : k == k2 with
    | true =>
      exfalso
      simp [mapGet, List.lookup, hb] at habs
    | false =>
      have h2 : (k2 == k) = false := by
        have : k ≠ k2 := by simpa using hb
        simpa using Ne.symm this
      have htl : mapGet tl k = none := by
        simpa [mapGet, List.lookup, hb] using habs
      simp [mapDel, h2, ih htl]

theorem rbrace_ne_lbrace : rbrace ≠ lbrace := by decide

theorem fmtStep_agree (params : List (String × String)) (st st2 : FmtState) (c : Char)
    (h : fmtStep params st c = .ok st2) : specSubstStep params st c = .ok st2 := by
  cases st with
  | mk mode out =>
    cases mode with
    | plain => simpa [fmtStep, specSubstStep] using h
    | afterL =>
      by_cases hc1 : c = lbrace
      · simpa [fmtStep, specSubstStep, hc1] using h
      · by_cases hc2 : c = rbrace
        · simp [fmtStep, hc1, hc2, rbrace_ne_lbrace] at h
        · simpa [fmtStep, specSubstStep, hc1, hc2] using h
    | afterR =>
      by_cases hc : c = rbrace
      · simpa [fmtStep, specSubstStep, hc] using h
      · simp [fmtStep, hc] at h
    | inName acc =>
      by_cases hc : c = rbrace
      · cases hp : params.lookup (String.mk acc.reverse) with
        | some v => simpa [fmtStep, specSubstStep, hc, hp] using h
        | none => simp [fmtStep, hc, hp] at h
      · simpa [fmtStep, specSubstStep, hc] using h

theorem fmtRun_agree (params : List (String × String)) (cs : List Char) :
    ∀ (st st2 : FmtState), fmtRun (fmtStep params) st cs = .ok st2 →
      fmtRun (specSubstStep params) st cs = .ok st2 := by
  induction cs with
  | nil => intro st st2 h; simpa [fmtRun] using h
  | cons c rest ih =>
    intro st st2 h
    rw [fmtRun] at h
    cases hc : fmtStep params st c with
    | error e => rw [hc] at h; simp at h
    | ok st1 =>
      rw [hc] at h
      rw [fmtRun, fmtStep_agree params st st1 c hc]
      exact ih st1 st2 h

/-- When the code's format succeeds (every placeholder matched), its output
agrees with the spec-side substitution semantics. -/
theorem formatPy_ok_agrees_spec (params : List (String × String)) (tmpl : String)
    (out : String) (h : formatPy params tmpl = .ok out) :
    specSubstitute params tmpl = .ok out := by
  unfold formatPy at h
  unfold specSubstitute
  cases hf : fmtRun (fmtStep params) ⟨.plain, []⟩ tmpl.data with
  | error e => rw [hf] at h; simp at h
  | ok st =>
    rw [hf] at h
    rw [fmtRun_agree params tmpl.data ⟨.plain, []⟩ st hf]
    exact h

/-! ## Claim theorems -/

open SupportBot

/-- C10: for every user and language, `set_user_language` followed by
`get_user_language` returns that language, and for every user whose
settings hold no language preference `get_user_language` returns the
default "RU". -/
theorem set_get_user_language_round_trip :
    (∀ (user_settings : DataManager.UserSettings) (user_id : Int) (language : String),
      DataManager.get_user_language
        (DataManager.set_user_language user_settings user_id language) user_id = language) ∧
    (∀ (user_settings : DataManager.UserSettings) (user_id : Int),
      ((mapGet user_settings (toString user_id)).getD []).lookup "language" = none →
      DataManager.get_user_language user_settings user_id = "RU") := by
  constructor
  · intro us uid lang
    simp only [DataManager.get_user_language, DataManager.set_user_language]
    rw [mapGet_mapSet_self]
    simp only [Option.getD_some]
    have h2 := mapGet_mapSet_self ((mapGet us (toString uid)).getD []) "language" lang
    simp only [mapGet] at h2 ⊢
    rw [h2]
    rfl
  · intro us uid h
    simp only [DataManager.get_user_language]
    rw [h]
    rfl

/-- Witness for C10 at user 7 with language "UZ" and at absent user 8. -/
theorem set_get_user_language_round_trip_witness :
    DataManager.get_user_language (DataManager.set_user_language [] 7 "UZ") 7 = "UZ" ∧
    DataManager.get_user_language [("8", [])] 8 = "RU" :=
  ⟨set_get_user_language_round_trip.1 [] 7 "UZ",
   set_get_user_language_round_trip.2 [("8", [])] 8 rfl⟩

/-- C2: starting the ticket dialog twice for the same user in a group
context leaves the session store holding exactly the second invocation's
fresh draft — group name, group id and submitter name from the second
call, with no branch or description carried over from whatever the first
call (over any prior state) stored. -/
theorem sos_command_replaces_prior_draft
    (st : BotState) (user_id : Int) (chat1 chat2 : Chat)
    (fn1 fn2 now1 now2 : String)
    (h : chat2.ctype = .group ∨ chat2.ctype = .supergroup) :
    mapGet (sos_command (sos_command st user_id chat1 fn1 now1).st
        user_id chat2 fn2 now2).st.user_data user_id =
      some ⟨chat2.title, chat2.id, fn2, none, none⟩ := by
  generalize (sos_command st user_id chat1 fn1 now1).st = st1
  have hcond : ¬(chat2.ctype ≠ ChatType.group ∧ chat2.ctype ≠ ChatType.supergroup) := by
    rcases h with h | h <;> simp [h]
  simp only [sos_command, hcond, if_neg, not_false_eq_true]
  exact mapGet_mapSet_self st1.user_data user_id _

/-- Witness for C2: user 42 starts in chat 555 then in supergroup 777. -/
theorem sos_command_replaces_prior_draft_witness :
    mapGet (sos_command (sos_command ⟨[], [], []⟩ 42 ⟨555, "Branch-12", .group⟩
        "Ivan" "t1").st 42 ⟨777, "Branch-99", .supergroup⟩ "Ivan" "t2").st.user_data 42 =
      some ⟨"Branch-99", 777, "Ivan", none, none⟩ :=
  sos_command_replaces_prior_draft ⟨[], [], []⟩ 42 ⟨555, "Branch-12", .group⟩
    ⟨777, "Branch-99", .supergroup⟩ "Ivan" "Ivan" "t1" "t2" (Or.inr rfl)

/-- C3: on a complete draft the dispatcher returns true exactly on an HTTP
200 response, and returns false — rather than raising — on every
non-success status and on every raised transport exception (timeouts and
connection faults included). Totality of `send_to_pyrus` as a `Bool`-valued
function is the never-raises part of the claim. -/
theorem send_to_pyrus_definite_outcome
    (data : TicketDraft) (b ds : String)
    (hb : data.branch = some b) (hd : data.description = some ds) :
    (∀ body, send_to_pyrus data (.status 200 body) = true) ∧
    (∀ code body, code ≠ 200 → send_to_pyrus data (.status code body) = false) ∧
    (∀ msg, send_to_pyrus data (.exn msg) = false) := by
  refine ⟨?_, ?_, ?_⟩
  · intro body
    simp [send_to_pyrus, hb, hd]
  · intro code body hne
    simp [send_to_pyrus, hb, hd, hne]
  · intro msg
    simp [send_to_pyrus, hb, hd]

/-- Witness for C3 on a concrete complete draft against a 200 response, a
500 response and a timeout exception. -/
theorem send_to_pyrus_definite_outcome_witness :
    send_to_pyrus ⟨"Branch-12", 555, "Ivan", some "Central", some "Printer jammed"⟩
      (.status 200 "ok") = true ∧
    send_to_pyrus ⟨"Branch-12", 555, "Ivan", some "Central", some "Printer jammed"⟩
      (.status 500 "server error") = false ∧
    send_to_pyrus ⟨"Branch-12", 555, "Ivan", some "Central", some "Printer jammed"⟩
      (.exn "timeout") = false :=
  have h := send_to_pyrus_definite_outcome
    ⟨"Branch-12", 555, "Ivan", some "Central", some "Printer jammed"⟩
    "Central" "Printer jammed" rfl rfl
  ⟨h.1 "ok", h.2.1 500 "server error" (by decide), h.2.2 "timeout"⟩

/-- C8: an input that is empty after trimming leaves the branch step in
`AWAIT_BRANCH` re-rendering the empty-branch error and leaves the
description step in `AWAIT_DESCRIPTION` re-rendering the
empty-description error; in both cases the whole bot state — every draft
field included — is returned unchanged. -/
theorem empty_input_rejected_in_place
    (st : BotState) (user_id : Int) (text : String) (h : pyStrip text = "") :
    receive_branch st user_id text =
      ⟨st, BRANCH, [⟨["errors", "empty_branch"], []⟩]⟩ ∧
    receive_description st user_id text =
      (st, .ok (DESCRIPTION, [⟨["errors", "empty_description"], []⟩])) := by
  have he : (pyStrip text).isEmpty = true := by rw [h]; rfl
  exact ⟨by simp [receive_branch, he], by simp [receive_description, he]⟩

/-- Witness for C8: a whitespace-only reply from user 42 holding a draft. -/
theorem empty_input_rejected_in_place_witness :
    receive_branch ⟨[(42, ⟨"Branch-12", 555, "Ivan", none, none⟩)], [], []⟩ 42 "   " =
      ⟨⟨[(42, ⟨"Branch-12", 555, "Ivan", none, none⟩)], [], []⟩,
        BRANCH, [⟨["errors", "empty_branch"], []⟩]⟩ ∧
    receive_description ⟨[(42, ⟨"Branch-12", 555, "Ivan", none, none⟩)], [], []⟩ 42 "   " =
      (⟨[(42, ⟨"Branch-12", 555, "Ivan", none, none⟩)], [], []⟩,
        .ok (DESCRIPTION, [⟨["errors", "empty_description"], []⟩])) :=
  empty_input_rejected_in_place
    ⟨[(42, ⟨"Branch-12", 555, "Ivan", none, none⟩)], [], []⟩ 42 "   " rfl

/-- C9: a cancel always ends the conversation rendering the cancellation
acknowledgment and leaves no draft for the user; when the user had no
draft the state is returned untouched (discarding a nonexistent draft is
not an error), and the confirmation-step cancel button behaves the same
way. -/
theorem cancel_idempotent_acknowledges
    (st : BotState) (user_id : Int) (net : ReqResult)
    (hwf : mapWF st.user_data = true) :
    (cancel st user_id).ret = END ∧
    (cancel st user_id).sent = [⟨["ticket", "cancelled"], []⟩] ∧
    mapGet (cancel st user_id).st.user_data user_id = none ∧
    (mapGet st.user_data user_id = none → (cancel st user_id).st = st) ∧
    (confirm_ticket_callback st user_id .cancel_ticket net).2 =
      [⟨["ticket", "cancelled"], []⟩] ∧
    mapGet (confirm_ticket_callback st user_id .cancel_ticket net).1.user_data
      user_id = none := by
  refine ⟨rfl, rfl, mapGet_mapDel_self st.user_data user_id hwf, ?_, rfl,
    mapGet_mapDel_self st.user_data user_id hwf⟩
  intro habs
  obtain ⟨ud, gs, us⟩ := st
  simp only [cancel]
  simp only at habs
  rw [mapDel_absent ud user_id habs]

/-- C1: with a live draft, the confirm decision invokes the dispatcher and
renders the success acknowledgment exactly when it reports success and
the dispatch-error acknowledgment exactly when it reports failure; in
both cases the draft is deleted, so a subsequent session-store lookup for
the user finds nothing regardless of the backend outcome. -/
theorem confirm_renders_by_outcome_and_discards
    (st : BotState) (user_id : Int) (net : ReqResult) (data : TicketDraft)
    (hwf : mapWF st.user_data = true)
    (hdraft : mapGet st.user_data user_id = some data) :
    (send_to_pyrus data net = true →
      (confirm_ticket_callback st user_id .confirm_ticket net).2 =
        [⟨["ticket", "created"], []⟩]) ∧
    (send_to_pyrus data net = false →
      (confirm_ticket_callback st user_id .confirm_ticket net).2 =
        [⟨["errors", "pyrus_error"], []⟩]) ∧
    mapGet (confirm_ticket_callback st user_id
      .confirm_ticket net).1.user_data user_id = none := by
  refine ⟨?_, ?_, ?_⟩
  · intro hs
    simp [confirm_ticket_callback, hdraft, hs]
  · intro hs
    simp [confirm_ticket_callback, hdraft, hs]
  · simp only [confirm_ticket_callback, hdraft]
    exact mapGet_mapDel_self st.user_data user_id hwf

/-- Witness for C1: user 42 confirms a complete draft against a 200
response. -/
theorem confirm_renders_by_outcome_and_discards_witness :
    (send_to_pyrus ⟨"Branch-12", 555, "Ivan", some "Central", some "Printer jammed"⟩
        (.status 200 "ok") = true →
      (confirm_ticket_callback
        ⟨[(42, ⟨"Branch-12", 555, "Ivan", some "Central", some "Printer jammed"⟩)], [], []⟩
        42 .confirm_ticket (.status 200 "ok")).2 = [⟨["ticket", "created"], []⟩]) ∧
    (send_to_pyrus ⟨"Branch-12", 555, "Ivan", some "Central", some "Printer jammed"⟩
        (.status 200 "ok") = false →
      (confirm_ticket_callback
        ⟨[(42, ⟨"Branch-12", 555, "Ivan", some "Central", some "Printer jammed"⟩)], [], []⟩
        42 .confirm_ticket (.status 200 "ok")).2 = [⟨["errors", "pyrus_error"], []⟩]) ∧
    mapGet (confirm_ticket_callback
      ⟨[(42, ⟨"Branch-12", 555, "Ivan", some "Central", some "Printer jammed"⟩)], [], []⟩
      42 .confirm_ticket (.status 200 "ok")).1.user_data 42 = none :=
  confirm_renders_by_outcome_and_discards
    ⟨[(42, ⟨"Branch-12", 555, "Ivan", some "Central", some "Printer jammed"⟩)], [], []⟩
    42 (.status 200 "ok")
    ⟨"Branch-12", 555, "Ivan", some "Central", some "Printer jammed"⟩ rfl rfl

/-- Witness for C9: user 41 cancels while holding no draft (user 42 does). -/
theorem cancel_idempotent_acknowledges_witness :
    (cancel ⟨[(42, ⟨"Branch-12", 555, "Ivan", none, none⟩)], [], []⟩ 41).ret = END ∧
    (cancel ⟨[(42, ⟨"Branch-12", 555, "Ivan", none, none⟩)], [], []⟩ 41).sent =
      [⟨["ticket", "cancelled"], []⟩] ∧
    mapGet (cancel ⟨[(42, ⟨"Branch-12", 555, "Ivan", none, none⟩)], [], []⟩
      41).st.user_data 41 = none ∧
    (mapGet (⟨[(42, ⟨"Branch-12", 555, "Ivan", none, none⟩)], [], []⟩ :
        BotState).user_data 41 = none →
      (cancel ⟨[(42, ⟨"Branch-12", 555, "Ivan", none, none⟩)], [], []⟩ 41).st =
        ⟨[(42, ⟨"Branch-12", 555, "Ivan", none, none⟩)], [], []⟩) ∧
    (confirm_ticket_callback ⟨[(42, ⟨"Branch-12", 555, "Ivan", none, none⟩)], [], []⟩
      41 .cancel_ticket (.status 200 "ok")).2 = [⟨["ticket", "cancelled"], []⟩] ∧
    mapGet (confirm_ticket_callback
      ⟨[(42, ⟨"Branch-12", 555, "Ivan", none, none⟩)], [], []⟩
      41 .cancel_ticket (.status 200 "ok")).1.user_data 41 = none :=
  cancel_idempotent_acknowledges
    ⟨[(42, ⟨"Branch-12", 555, "Ivan", none, none⟩)], [], []⟩ 41 (.status 200 "ok") rfl

/-- C5 counterexample: on the template "\x7ba\x7d \x7bb\x7d" with a
parameter mapping binding only "a", the resolver returns the
missing-translation marker — the unmatched placeholder "\x7bb\x7d" is not
left verbatim in a partially substituted string. -/
theorem unmatched_placeholder_not_left_verbatim :
    LocalizationManager.get [("RU", .obj [("t", .str "\x7ba\x7d \x7bb\x7d")])]
      "RU" ["t"] [("a", "x")] = .ok (.str "[Missing translation: t]") ∧
    LocalizationManager.get [("RU", .obj [("t", .str "\x7ba\x7d \x7bb\x7d")])]
      "RU" ["t"] [("a", "x")] ≠ .ok (.str "x \x7bb\x7d") := by
  refine ⟨rfl, ?_⟩
  intro hcontra
  have h1 : (Except.ok (JValue.str "[Missing translation: t]") : Except Unit JValue) =
      .ok (.str "x \x7bb\x7d") := hcontra
  injection h1 with h2
  injection h2 with h3
  exact absurd h3 (by decide)

/-- C5 amended: with empty params the resolved template is returned
verbatim (no substitution is attempted); with nonempty params, if every
placeholder has a matching parameter the resolver returns the formatted
string — which agrees with the spec's substitute-what-matches semantics —
but if any placeholder lacks a matching parameter the whole resolution
returns the missing-translation marker (the `KeyError` from `format` is
caught) instead of leaving that placeholder verbatim. -/
theorem get_substitutes_or_marks_missing
    (locales : List (String × JValue)) (lang : String) (keys : List String)
    (params : List (String × String)) (b : JValue)
    (hb : LocalizationManager.bundleFor locales lang = some b) :
    (∀ v, LocalizationManager.walk b keys = some v → params = [] →
      LocalizationManager.get locales lang keys params = .ok v) ∧
    (∀ tmpl out, LocalizationManager.walk b keys = some (.str tmpl) →
      params ≠ [] → formatPy params tmpl = .ok out →
      LocalizationManager.get locales lang keys params = .ok (.str out) ∧
      specSubstitute params tmpl = .ok out) ∧
    (∀ tmpl name, LocalizationManager.walk b keys = some (.str tmpl) →
      params ≠ [] → formatPy params tmpl = .error (.keyError name) →
      LocalizationManager.get locales lang keys params =
        .ok (.str (LocalizationManager.missingText keys))) := by
  refine ⟨?_, ?_, ?_⟩
  · intro v hw hp
    simp [LocalizationManager.get, hb, hw, hp]
  · intro tmpl out hw hp hf
    have hpe : params.isEmpty = false := by
      cases params with
      | nil => exact absurd rfl hp
      | cons a l => rfl
    exact ⟨by simp [LocalizationManager.get, hb, hw, hpe, hf],
      formatPy_ok_agrees_spec params tmpl out hf⟩
  · intro tmpl name hw hp hf
    have hpe : params.isEmpty = false := by
      cases params with
      | nil => exact absurd rfl hp
      | cons a l => rfl
    simp [LocalizationManager.get, hb, hw, hpe, hf]

/-- Witness for C5 (amended): a matched placeholder is substituted, in
agreement with the spec-side substitution. -/
theorem get_substitutes_or_marks_missing_witness :
    LocalizationManager.get [("RU", .obj [("t", .str "Hello \x7bname\x7d")])]
      "RU" ["t"] [("name", "Ivan")] = .ok (.str "Hello Ivan") ∧
    specSubstitute [("name", "Ivan")] "Hello \x7bname\x7d" = .ok "Hello Ivan" :=
  (get_substitutes_or_marks_missing
    [("RU", .obj [("t", .str "Hello \x7bname\x7d")])] "RU" ["t"]
    [("name", "Ivan")] (.obj [("t", .str "Hello \x7bname\x7d")]) rfl).2.1
    "Hello \x7bname\x7d" "Hello Ivan" rfl (by simp) rfl

/-- C6 counterexample: a locale file that fails to load with anything
other than a missing-file error — a malformed JSON file, say — is not
replaced by an empty mapping: the exception escapes `load_locales` and
crashes startup. -/
theorem malformed_locale_file_crashes :
    LocalizationManager.load_locales (fun _ => .otherFailure) = .error () := rfl

/-- C6 amended: a language whose locale file is missing
(`FileNotFoundError`) gets an empty mapping and startup proceeds,
provided no load fails in any other way; a present but malformed file is
not caught. -/
theorem load_locales_missing_file_yields_empty
    (loadFile : String → LocalizationManager.LoadOutcome) (lang : String)
    (hru : loadFile "RU" ≠ .otherFailure)
    (huz : loadFile "UZ" ≠ .otherFailure)
    (hlang : lang = "RU" ∨ lang = "UZ")
    (hmiss : loadFile lang = .fileNotFound) :
    (LocalizationManager.load_locales loadFile).map
      (fun locales => locales.lookup lang) = .ok (some (.obj [])) := by
  rcases hlang with h | h
  · subst h
    cases hu : loadFile "UZ" with
    | otherFailure => exact absurd hu huz
    | loaded w =>
      simp only [LocalizationManager.load_locales, LocalizationManager.load_locales.go,
        hmiss, hu, mapSet]
      rfl
    | fileNotFound =>
      simp only [LocalizationManager.load_locales, LocalizationManager.load_locales.go,
        hmiss, hu, mapSet]
      rfl
  · subst h
    cases hr : loadFile "RU" with
    | otherFailure => exact absurd hr hru
    | loaded v =>
      simp only [LocalizationManager.load_locales, LocalizationManager.load_locales.go,
        hmiss, hr, mapSet]
      rfl
    | fileNotFound =>
      simp only [LocalizationManager.load_locales, LocalizationManager.load_locales.go,
        hmiss, hr, mapSet]
      rfl

/-- Witness for C6 (amended): both locale files missing, the UZ bundle is
the empty mapping. -/
theorem load_locales_missing_file_yields_empty_witness :
    (LocalizationManager.load_locales (fun _ => .fileNotFound)).map
      (fun locales => locales.lookup "UZ") = .ok (some (.obj [])) :=
  load_locales_missing_file_yields_empty (fun _ => .fileNotFound) "UZ"
    (by simp) (by simp) (Or.inr rfl) rfl

/-- C7 counterexample: when the key walk ends on a nested mapping and no
params are given, the resolver returns the raw mapping object, not the
visibly-marked placeholder string the claim promises for a non-string
final value. -/
theorem nested_final_value_returned_raw :
    LocalizationManager.get
      [("RU", .obj [("a", .obj [("b", .str "x")])]), ("UZ", .obj [])]
      "RU" ["a"] [] = .ok (.obj [("b", .str "x")]) ∧
    LocalizationManager.get
      [("RU", .obj [("a", .obj [("b", .str "x")])]), ("UZ", .obj [])]
      "RU" ["a"] [] ≠ .ok (.str (LocalizationManager.missingText ["a"])) := by
  refine ⟨rfl, ?_⟩
  intro hcontra
  have h1 : (Except.ok (JValue.obj [("b", JValue.str "x")]) : Except Unit JValue) =
      .ok (.str (LocalizationManager.missingText ["a"])) := hcontra
  injection h1 with h2
  cases h2

/-- C7 amended: a language with no bundle resolves against the default RU
bundle; a missing key segment (or a walk into a string) yields the
visibly-marked placeholder embedding the dotted key path; but a walk
ending on a nested mapping returns the raw mapping when params are empty,
and an uncaught `AttributeError` when they are not, rather than the
placeholder. -/
theorem get_falls_back_and_marks_missing
    (locales : List (String × JValue)) (lang : String) (keys : List String)
    (params : List (String × String)) :
    (locales.lookup lang = none →
      LocalizationManager.get locales lang keys params =
        LocalizationManager.get locales "RU" keys params) ∧
    (∀ b, LocalizationManager.bundleFor locales lang = some b →
      LocalizationManager.walk b keys = none →
      LocalizationManager.get locales lang keys params =
        .ok (.str (LocalizationManager.missingText keys))) ∧
    (∀ b fields, LocalizationManager.bundleFor locales lang = some b →
      LocalizationManager.walk b keys = some (.obj fields) →
      LocalizationManager.get locales lang keys params =
        (if params.isEmpty then .ok (.obj fields) else .error ())) := by
  refine ⟨?_, ?_, ?_⟩
  · intro hlang
    have hb : LocalizationManager.bundleFor locales lang =
        LocalizationManager.bundleFor locales "RU" := by
      unfold LocalizationManager.bundleFor
      cases hru : locales.lookup "RU" with
      | none => rfl
      | some ru => simp [hlang]
    unfold LocalizationManager.get
    rw [hb]
  · intro b hb hw
    simp [LocalizationManager.get, hb, hw]
  · intro b fields hb hw
    cases hpe : params.isEmpty with
    | true => simp [LocalizationManager.get, hb, hw, hpe]
    | false => simp [LocalizationManager.get, hb, hw, hpe]

/-- Witness for C7 (amended): "FR" with only RU and UZ loaded resolves
like "RU", and a key RU also lacks yields the placeholder. -/
theorem get_falls_back_and_marks_missing_witness :
    LocalizationManager.get [("RU", .obj [("greet", .str "hi")]), ("UZ", .obj [])]
      "FR" ["greet"] [] =
      LocalizationManager.get [("RU", .obj [("greet", .str "hi")]), ("UZ", .obj [])]
        "RU" ["greet"] [] ∧
    LocalizationManager.get [("RU", .obj [("greet", .str "hi")]), ("UZ", .obj [])]
      "RU" ["nope"] [] = .ok (.str (LocalizationManager.missingText ["nope"])) :=
  ⟨(get_falls_back_and_marks_missing
      [("RU", .obj [("greet", .str "hi")]), ("UZ", .obj [])] "FR" ["greet"] []).1 rfl,
   (get_falls_back_and_marks_missing
      [("RU", .obj [("greet", .str "hi")]), ("UZ", .obj [])] "RU" ["nope"] []).2.1
      (.obj [("greet", .str "hi")]) rfl rfl⟩

end VedaSOS
